import Mathlib

/-!
Verification of the Spark-compatible hashing core
(`core/src/execution/datafusion/spark_hash.rs`).

Machine integers are embedded as `Nat` (for unsigned bit patterns, reduced
modulo `2^32` / `2^64` where the Rust code wraps) and `Int` (for signed
values).  Bytes are `Nat`s below 256; byte strings are `List Nat`.
Columnar arrays are lists of `Option` values (with `none` for a null slot),
and fallible code returns an explicit result type distinguishing a returned
`DataFusionError` from a Rust panic.
-/

/-! ## Murmur3 core (`spark_compatible_murmur3_hash`) -/

/-- Rotate a 32-bit value left by `n` (for `x < 2^32`, `n ≤ 32`), as Rust's
`i32::rotate_left`. -/
def rotl32 (x n : Nat) : Nat :=
  ((x <<< n) % 4294967296) ||| (x >>> (32 - n))

/-- The source's `mix_k1`: `k1 * 0xcc9e2d51`, rotate left 15,
`* 0x1b873593`, all with 32-bit wrapping arithmetic. -/
def mix_k1 (k1 : Nat) : Nat :=
  let a := (k1 * 0xcc9e2d51) % 4294967296
  let b := rotl32 a 15
  (b * 0x1b873593) % 4294967296

/-- The source's `mix_h1`: `h1 ^= k1`, rotate left 13,
`h1*5 + 0xe6546b64`, with 32-bit wrapping arithmetic. -/
def mix_h1 (h1 k1 : Nat) : Nat :=
  let a := h1 ^^^ k1
  let b := rotl32 a 13
  (b * 5 + 0xe6546b64) % 4294967296

/-- The source's `fmix`: xor in the total length, then the
shift/multiply avalanche.  The right shifts are logical (the source
casts through `u32`). -/
def fmix (h1 len : Nat) : Nat :=
  let a := h1 ^^^ (len % 4294967296)
  let b := a ^^^ (a >>> 16)
  let c := (b * 0x85ebca6b) % 4294967296
  let d := c ^^^ (c >>> 13)
  let e := (d * 0xc2b2ae35) % 4294967296
  e ^^^ (e >>> 16)

/-- The unsigned 32-bit value of a 4-byte little-endian word, as read by
`hash_bytes_by_int` on a little-endian host (an `i32` read reinterpreted;
the bit pattern is the same). -/
def word32 (b0 b1 b2 b3 : Nat) : Nat :=
  (b0 % 256) + 256 * (b1 % 256) + 65536 * (b2 % 256) + 16777216 * (b3 % 256)

/-- A byte sign-extended to 32 bits (`byte as i8 as i32`), as an unsigned
32-bit bit pattern. -/
def signExtendByte (b : Nat) : Nat :=
  let c := b % 256
  if c < 128 then c else 0xffffff00 + c

/-- The main loop of `spark_compatible_murmur3_hash`: mix full 4-byte
little-endian words (`hash_bytes_by_int`), then mix each remaining tail
byte individually, sign-extended to 32 bits. -/
def hashBytesLoop : List Nat → Nat → Nat
  | b0 :: b1 :: b2 :: b3 :: rest, h1 =>
      hashBytesLoop rest (mix_h1 h1 (mix_k1 (word32 b0 b1 b2 b3)))
  | tail, h1 =>
      tail.foldl (fun h b => mix_h1 h (mix_k1 (signExtendByte b))) h1
termination_by l _ => l.length
decreasing_by simp [List.length_cons]; omega

/-- The hash `spark_compatible_murmur3_hash(data, seed)`: run the word/tail loop
from the seed, then finalize with the total byte length. -/
def spark_compatible_murmur3_hash (data : List Nat) (seed : Nat) : Nat :=
  fmix (hashBytesLoop data (seed % 4294967296)) (data.length % 4294967296)

/-- A 32-bit bit pattern reinterpreted as a signed 32-bit integer
(`x as i32`). -/
def toSigned32 (n : Nat) : Int :=
  if n % 4294967296 < 2147483648 then ((n % 4294967296 : Nat) : Int)
  else ((n % 4294967296 : Nat) : Int) - 4294967296

/-! Spec-side restatement of the murmur3 core, following the spec's words:
split the input into 4-byte little-endian words plus a 1-3 byte tail, fold
the per-word step over the words, mix each tail byte sign-extended, then
finalize over the total byte length. -/

/-- The 4-byte little-endian words of a byte string (spec wording); the
1-3 byte tail is dropped. -/
def leWords : List Nat → List Nat
  | b0 :: b1 :: b2 :: b3 :: rest => word32 b0 b1 b2 b3 :: leWords rest
  | _ => []

/-- The 0-3 trailing bytes of a byte string after the 4-byte words
(spec wording). -/
def leTail : List Nat → List Nat
  | _ :: _ :: _ :: _ :: rest => leTail rest
  | t => t

/-- The murmur3 hash as the spec describes it word-by-word: fold the
per-word step over the little-endian words, then over the sign-extended
tail bytes, then finalize with the byte length. -/
def murmur3SpecWords (data : List Nat) (seed : Nat) : Nat :=
  let h1 := (leWords data).foldl (fun h w => mix_h1 h (mix_k1 w)) (seed % 4294967296)
  let h2 := (leTail data).foldl (fun h b => mix_h1 h (mix_k1 (signExtendByte b))) h1
  fmix h2 (data.length % 4294967296)

/-! ## Canonical byte encodings of values -/

/-- The `w` little-endian bytes of `n` (`to_le_bytes` on the `w*8`-bit
bit pattern `n`). -/
def natLeBytes : Nat → Nat → List Nat
  | 0, _ => []
  | w + 1, n => (n % 256) :: natLeBytes w (n / 256)

/-- The bytes of `(x as i32).to_le_bytes()`: the value sign-extended / wrapped to a
32-bit bit pattern, in little-endian byte order. -/
def encI32 (x : Int) : List Nat :=
  natLeBytes 4 (x % 4294967296).toNat

/-- The bytes of `(x as i64).to_le_bytes()`: 64-bit little-endian. -/
def encI64 (x : Int) : List Nat :=
  natLeBytes 8 (x % 18446744073709551616).toNat

/-- The bytes of `i128::to_le_bytes`: 128-bit little-endian bytes of the unscaled
decimal integer. -/
def encI128 (x : Int) : List Nat :=
  natLeBytes 16 (x % 340282366920938463463374607431768211456).toNat

/-- The bytes of `i32::from(bool).to_le_bytes()`: booleans hash as the 32-bit
integer 0 or 1. -/
def encBool (b : Bool) : List Nat :=
  encI32 (if b then 1 else 0)

/-- Encoding of a Float32 given by its IEEE-754 bit pattern `bits`.
The source tests `*value == 0.0 && value.is_sign_negative()`, which on
bit patterns holds exactly for `0x80000000` (negative zero; `+0.0` is 0
and every other pattern compares `!= 0.0`), and then hashes
`(0 as i32).to_le_bytes()`; otherwise it hashes the value's own bits
little-endian. -/
def encF32 (bits : Nat) : List Nat :=
  if bits = 0x80000000 then natLeBytes 4 0 else natLeBytes 4 bits

/-- Encoding of a Float64 given by its IEEE-754 bit pattern; negative
zero (`0x8000000000000000`) is re-encoded as `(0 as i64).to_le_bytes()`. -/
def encF64 (bits : Nat) : List Nat :=
  if bits = 0x8000000000000000 then natLeBytes 8 0 else natLeBytes 8 bits

/-! ## Columns -/

/-- Dictionary key-index types: the eight integer types handled by the
`DataType::Dictionary(index_type, _)` match in `create_hashes`, plus
`other` for any index type falling into its `_` arm. -/
inductive KeyType where
  | int8 | int16 | int32 | int64
  | uint8 | uint16 | uint32 | uint64
  | other (name : String)
deriving DecidableEq, Repr

def KeyType.typeName : KeyType → String
  | .int8 => "Int8"
  | .int16 => "Int16"
  | .int32 => "Int32"
  | .int64 => "Int64"
  | .uint8 => "UInt8"
  | .uint16 => "UInt16"
  | .uint32 => "UInt32"
  | .uint64 => "UInt64"
  | .other n => n

/-- True exactly for the eight key-index types with a
`create_hashes_dictionary::<K>` dispatch arm. -/
def KeyType.isSupported : KeyType → Bool
  | .other _ => false
  | _ => true

/-- A typed column: one constructor per `DataType` arm of
`create_hashes`.  Values are `none` at null slots.  Integer-valued
arrays carry their native values as `Int`; float arrays carry IEEE-754
bit patterns; text/binary arrays carry content bytes.  `unsupported`
stands for any column whose logical type falls into the final `_` arm. -/
inductive Col where
  | boolean (vals : List (Option Bool))
  | int8 (vals : List (Option Int))
  | int16 (vals : List (Option Int))
  | int32 (vals : List (Option Int))
  | int64 (vals : List (Option Int))
  | float32 (bits : List (Option Nat))
  | float64 (bits : List (Option Nat))
  | timestampSecond (vals : List (Option Int))
  | timestampMillisecond (vals : List (Option Int))
  | timestampMicrosecond (vals : List (Option Int))
  | timestampNanosecond (vals : List (Option Int))
  | date32 (vals : List (Option Int))
  | date64 (vals : List (Option Int))
  | utf8 (vals : List (Option (List Nat)))
  | largeUtf8 (vals : List (Option (List Nat)))
  | binary (vals : List (Option (List Nat)))
  | largeBinary (vals : List (Option (List Nat)))
  | fixedSizeBinary (width : Nat) (vals : List (Option (List Nat)))
  | decimal128 (precision scale : Nat) (vals : List (Option Int))
  | dictionary (kt : KeyType) (keys : List (Option Int)) (values : Col)
  | unsupported (name : String)
deriving DecidableEq, Repr

/-- Row count of a column (`Array::len`). -/
def Col.numRows : Col → Nat
  | .boolean vs => vs.length
  | .int8 vs => vs.length
  | .int16 vs => vs.length
  | .int32 vs => vs.length
  | .int64 vs => vs.length
  | .float32 vs => vs.length
  | .float64 vs => vs.length
  | .timestampSecond vs => vs.length
  | .timestampMillisecond vs => vs.length
  | .timestampMicrosecond vs => vs.length
  | .timestampNanosecond vs => vs.length
  | .date32 vs => vs.length
  | .date64 vs => vs.length
  | .utf8 vs => vs.length
  | .largeUtf8 vs => vs.length
  | .binary vs => vs.length
  | .largeBinary vs => vs.length
  | .fixedSizeBinary _ vs => vs.length
  | .decimal128 _ _ vs => vs.length
  | .dictionary _ ks _ => ks.length
  | .unsupported _ => 0

/-- Display name of a column's `DataType` (used in error messages). -/
def Col.typeName : Col → String
  | .boolean _ => "Boolean"
  | .int8 _ => "Int8"
  | .int16 _ => "Int16"
  | .int32 _ => "Int32"
  | .int64 _ => "Int64"
  | .float32 _ => "Float32"
  | .float64 _ => "Float64"
  | .timestampSecond _ => "Timestamp(Second)"
  | .timestampMillisecond _ => "Timestamp(Millisecond)"
  | .timestampMicrosecond _ => "Timestamp(Microsecond)"
  | .timestampNanosecond _ => "Timestamp(Nanosecond)"
  | .date32 _ => "Date32"
  | .date64 _ => "Date64"
  | .utf8 _ => "Utf8"
  | .largeUtf8 _ => "LargeUtf8"
  | .binary _ => "Binary"
  | .largeBinary _ => "LargeBinary"
  | .fixedSizeBinary _ _ => "FixedSizeBinary"
  | .decimal128 _ _ _ => "Decimal128"
  | .dictionary kt _ v => "Dictionary(" ++ kt.typeName ++ ", " ++ v.typeName ++ ")"
  | .unsupported n => n

/-- A column whose every logical type (recursively through dictionary
values) is inside the supported closed set. -/
def Col.supportedType : Col → Bool
  | .dictionary kt _ v => kt.isSupported && v.supportedType
  | .unsupported _ => false
  | _ => true

/-- Whether row `i` of the column is null.  For a dictionary column a
null key plays the role of a null value.  Indices beyond the column's
row count also report `true` (there is no value there). -/
def Col.isNullAt : Col → Nat → Bool
  | .boolean vs, i => (vs.getD i none).isNone
  | .int8 vs, i => (vs.getD i none).isNone
  | .int16 vs, i => (vs.getD i none).isNone
  | .int32 vs, i => (vs.getD i none).isNone
  | .int64 vs, i => (vs.getD i none).isNone
  | .float32 vs, i => (vs.getD i none).isNone
  | .float64 vs, i => (vs.getD i none).isNone
  | .timestampSecond vs, i => (vs.getD i none).isNone
  | .timestampMillisecond vs, i => (vs.getD i none).isNone
  | .timestampMicrosecond vs, i => (vs.getD i none).isNone
  | .timestampNanosecond vs, i => (vs.getD i none).isNone
  | .date32 vs, i => (vs.getD i none).isNone
  | .date64 vs, i => (vs.getD i none).isNone
  | .utf8 vs, i => (vs.getD i none).isNone
  | .largeUtf8 vs, i => (vs.getD i none).isNone
  | .binary vs, i => (vs.getD i none).isNone
  | .largeBinary vs, i => (vs.getD i none).isNone
  | .fixedSizeBinary _ vs, i => (vs.getD i none).isNone
  | .decimal128 _ _ vs, i => (vs.getD i none).isNone
  | .dictionary _ ks _, i => (ks.getD i none).isNone
  | .unsupported _, _ => true

/-- The column with row `i` removed (values for raw columns, the key for
a dictionary column). -/
def Col.eraseRow : Col → Nat → Col
  | .boolean vs, i => .boolean (vs.eraseIdx i)
  | .int8 vs, i => .int8 (vs.eraseIdx i)
  | .int16 vs, i => .int16 (vs.eraseIdx i)
  | .int32 vs, i => .int32 (vs.eraseIdx i)
  | .int64 vs, i => .int64 (vs.eraseIdx i)
  | .float32 vs, i => .float32 (vs.eraseIdx i)
  | .float64 vs, i => .float64 (vs.eraseIdx i)
  | .timestampSecond vs, i => .timestampSecond (vs.eraseIdx i)
  | .timestampMillisecond vs, i => .timestampMillisecond (vs.eraseIdx i)
  | .timestampMicrosecond vs, i => .timestampMicrosecond (vs.eraseIdx i)
  | .timestampNanosecond vs, i => .timestampNanosecond (vs.eraseIdx i)
  | .date32 vs, i => .date32 (vs.eraseIdx i)
  | .date64 vs, i => .date64 (vs.eraseIdx i)
  | .utf8 vs, i => .utf8 (vs.eraseIdx i)
  | .largeUtf8 vs, i => .largeUtf8 (vs.eraseIdx i)
  | .binary vs, i => .binary (vs.eraseIdx i)
  | .largeBinary vs, i => .largeBinary (vs.eraseIdx i)
  | .fixedSizeBinary w vs, i => .fixedSizeBinary w (vs.eraseIdx i)
  | .decimal128 p s vs, i => .decimal128 p s (vs.eraseIdx i)
  | .dictionary kt ks v, i => .dictionary kt (ks.eraseIdx i) v
  | .unsupported n, _ => .unsupported n

/-! ## Errors and results -/

/-- The `DataFusionError::Internal` errors `create_hashes` can return:
an unsupported column data type, an unsupported dictionary key-index
type, or a dictionary key that cannot be converted to a `usize` index
(carrying the raw key and the dictionary's type descriptor). -/
inductive HashErr where
  | unsupportedDataType (typeName : String)
  | unsupportedDictionaryType (typeName : String)
  | keyConversionFailure (key : Int) (dictType : String)
deriving DecidableEq, Repr

/-- True exactly for the two "type outside the supported closed set" errors. -/
def HashErr.isUnsupported : HashErr → Bool
  | .unsupportedDataType _ => true
  | .unsupportedDictionaryType _ => true
  | .keyConversionFailure _ _ => false

/-- Outcome of a hashing call over the caller's seed buffer: a normal
return with the updated buffer, a returned error together with the
buffer contents at the moment of the error (the buffer is mutated in
place, so updates made before the failure persist), or a Rust panic
(out-of-bounds indexing). -/
inductive HashResult where
  | ok (seeds : List Nat)
  | err (e : HashErr) (seeds : List Nat)
  | panicked
deriving DecidableEq, Repr

/-- Prepend this row's (possibly updated) seed onto the rest of the
buffer inside a result. -/
def HashResult.consSeed (s : Nat) : HashResult → HashResult
  | .ok l => .ok (s :: l)
  | .err e l => .err e (s :: l)
  | .panicked => .panicked

/-! ## Per-column row loops -/

/-- The row loop of `hash_array_primitive!` (also used by the float
macro with a different encoder): `hashes.iter_mut().zip(values...)`,
skipping null slots.  `zip` stops at the shorter side, so surplus seeds
(or surplus rows) are silently ignored. -/
def zipHashP {α : Type} (enc : α → List Nat) : List Nat → List (Option α) → List Nat
  | [], _ => []
  | ss, [] => ss
  | s :: ss, none :: vs => s :: zipHashP enc ss vs
  | s :: ss, some v :: vs =>
      spark_compatible_murmur3_hash (enc v) s :: zipHashP enc ss vs

/-- The row loop of `hash_array!` / `hash_array_decimal!` / the Boolean
arm: `hashes.iter_mut().enumerate()` with `array.value(i)`, so a seed
buffer longer than the column panics on the out-of-bounds access. -/
def zipHashE {α : Type} (enc : α → List Nat) : List Nat → List (Option α) → HashResult
  | [], _ => .ok []
  | _ :: _, [] => .panicked
  | s :: ss, none :: vs => (zipHashE enc ss vs).consSeed s
  | s :: ss, some v :: vs =>
      (zipHashE enc ss vs).consSeed (spark_compatible_murmur3_hash (enc v) s)

/-- The key fan-out loop of `create_hashes_dictionary`:
`hashes_buffer.iter_mut().zip(dict_array.keys().iter())`.  A null key
leaves the seed unchanged; a non-null key is converted to `usize`
(failing with the key-conversion error if it is negative) and then used
to index the precomputed per-value hashes (panicking when out of
bounds). -/
def fanOutKeys (dictHashes : List Nat) (dictType : String) :
    List Nat → List (Option Int) → HashResult
  | [], _ => .ok []
  | ss, [] => .ok ss
  | s :: ss, none :: ks => (fanOutKeys dictHashes dictType ss ks).consSeed s
  | s :: ss, some k :: ks =>
      if k < 0 then .err (.keyConversionFailure k dictType) (s :: ss)
      else
        match dictHashes[k.toNat]? with
        | some h => (fanOutKeys dictHashes dictType ss ks).consSeed h
        | none => .panicked

/-! ## `create_hashes` -/

/-- Processing of one column by `create_hashes` (the body of its
per-column `match col.data_type()`).  In the dictionary arm the source
calls `create_hashes(&[dict_values], &mut dict_hashes)`; a one-column
`create_hashes` call is exactly the processing of that column (lemma
`create_hashes_singleton` below), so the recursion here goes directly
through `hash_column` on the values column from a fresh all-zero
buffer. -/
def hash_column : Col → List Nat → HashResult
  | .boolean vs, seeds => zipHashE encBool seeds vs
  | .int8 vs, seeds => .ok (zipHashP encI32 seeds vs)
  | .int16 vs, seeds => .ok (zipHashP encI32 seeds vs)
  | .int32 vs, seeds => .ok (zipHashP encI32 seeds vs)
  | .int64 vs, seeds => .ok (zipHashP encI64 seeds vs)
  | .float32 bs, seeds => .ok (zipHashP encF32 seeds bs)
  | .float64 bs, seeds => .ok (zipHashP encF64 seeds bs)
  | .timestampSecond vs, seeds => .ok (zipHashP encI64 seeds vs)
  | .timestampMillisecond vs, seeds => .ok (zipHashP encI64 seeds vs)
  | .timestampMicrosecond vs, seeds => .ok (zipHashP encI64 seeds vs)
  | .timestampNanosecond vs, seeds => .ok (zipHashP encI64 seeds vs)
  | .date32 vs, seeds => .ok (zipHashP encI32 seeds vs)
  | .date64 vs, seeds => .ok (zipHashP encI64 seeds vs)
  | .utf8 vs, seeds => zipHashE (fun bs => bs) seeds vs
  | .largeUtf8 vs, seeds => zipHashE (fun bs => bs) seeds vs
  | .binary vs, seeds => zipHashE (fun bs => bs) seeds vs
  | .largeBinary vs, seeds => zipHashE (fun bs => bs) seeds vs
  | .fixedSizeBinary _ vs, seeds => zipHashE (fun bs => bs) seeds vs
  | .decimal128 _ _ vs, seeds => zipHashE encI128 seeds vs
  | .dictionary kt ks values, seeds =>
      match kt with
      | .other name =>
          .err (.unsupportedDictionaryType
            ("Dictionary(" ++ name ++ ", " ++ values.typeName ++ ")")) seeds
      | _ =>
          match hash_column values (List.replicate values.numRows 0) with
          | .ok dictHashes =>
              fanOutKeys dictHashes (Col.dictionary kt ks values).typeName seeds ks
          | .err e _ => .err e seeds
          | .panicked => .panicked
  | .unsupported name, seeds => .err (.unsupportedDataType name) seeds

/-- The top-level `create_hashes(arrays, hashes_buffer)`: process the columns in
order, threading the seed buffer; the first error or panic aborts the
loop (`?` propagation). -/
def create_hashes : List Col → List Nat → HashResult
  | [], seeds => .ok seeds
  | c :: cs, seeds =>
      match hash_column c seeds with
      | .ok seeds2 => create_hashes cs seeds2
      | r => r

/-- The source's `create_hashes_dictionary::<K>`, as written, using the
top-level `create_hashes` on the one-element values slice. -/
def create_hashes_dictionary (kt : KeyType) (ks : List (Option Int)) (values : Col)
    (hashes_buffer : List Nat) : HashResult :=
  match create_hashes [values] (List.replicate values.numRows 0) with
  | .ok dictHashes =>
      fanOutKeys dictHashes (Col.dictionary kt ks values).typeName hashes_buffer ks
  | .err e _ => .err e hashes_buffer
  | .panicked => .panicked

/-! ## Statement-side helper definitions -/

/-- The updated seed of one row: unchanged at a null slot, otherwise the
murmur3 hash of the encoded value from the current seed. -/
def rowHash {α : Type} (enc : α → List Nat) (s : Nat) (v : Option α) : Nat :=
  match v with
  | none => s
  | some x => spark_compatible_murmur3_hash (enc x) s

/-- Resolve one value per key: a null key gives a null row, a non-null
key selects the value at that index. -/
def gatherVals {α : Type} (vals : List (Option α)) (ks : List (Option Int)) :
    List (Option α) :=
  ks.map fun k? =>
    match k? with
    | none => none
    | some k => vals.getD k.toNat none

/-- The raw (non-dictionary) column a dictionary column with these keys
logically denotes: row `i` holds the distinct value selected by key `i`. -/
def Col.gather : Col → List (Option Int) → Col
  | .boolean vs, ks => .boolean (gatherVals vs ks)
  | .int8 vs, ks => .int8 (gatherVals vs ks)
  | .int16 vs, ks => .int16 (gatherVals vs ks)
  | .int32 vs, ks => .int32 (gatherVals vs ks)
  | .int64 vs, ks => .int64 (gatherVals vs ks)
  | .float32 vs, ks => .float32 (gatherVals vs ks)
  | .float64 vs, ks => .float64 (gatherVals vs ks)
  | .timestampSecond vs, ks => .timestampSecond (gatherVals vs ks)
  | .timestampMillisecond vs, ks => .timestampMillisecond (gatherVals vs ks)
  | .timestampMicrosecond vs, ks => .timestampMicrosecond (gatherVals vs ks)
  | .timestampNanosecond vs, ks => .timestampNanosecond (gatherVals vs ks)
  | .date32 vs, ks => .date32 (gatherVals vs ks)
  | .date64 vs, ks => .date64 (gatherVals vs ks)
  | .utf8 vs, ks => .utf8 (gatherVals vs ks)
  | .largeUtf8 vs, ks => .largeUtf8 (gatherVals vs ks)
  | .binary vs, ks => .binary (gatherVals vs ks)
  | .largeBinary vs, ks => .largeBinary (gatherVals vs ks)
  | .fixedSizeBinary w vs, ks => .fixedSizeBinary w (gatherVals vs ks)
  | .decimal128 p s vs, ks => .decimal128 p s (gatherVals vs ks)
  | .dictionary kt k2 v, ks => .dictionary kt (gatherVals k2 ks) v
  | .unsupported n, _ => .unsupported n

/-- A raw (non-dictionary, supported) column type. -/
def Col.isRaw : Col → Bool
  | .dictionary _ _ _ => false
  | .unsupported _ => false
  | _ => true

/-- The column types handled by `hash_array_primitive!` with an
integer-valued native type. -/
inductive PrimKind where
  | int8 | int16 | int32 | int64
  | timestampSecond | timestampMillisecond | timestampMicrosecond | timestampNanosecond
  | date32 | date64
deriving DecidableEq, Repr

/-- The encoder each primitive kind uses (`$ty` in the macro). -/
def PrimKind.enc : PrimKind → Int → List Nat
  | .int8 => encI32
  | .int16 => encI32
  | .int32 => encI32
  | .int64 => encI64
  | .timestampSecond => encI64
  | .timestampMillisecond => encI64
  | .timestampMicrosecond => encI64
  | .timestampNanosecond => encI64
  | .date32 => encI32
  | .date64 => encI64

/-- The column a primitive kind with these values denotes. -/
def PrimKind.toCol : PrimKind → List (Option Int) → Col
  | .int8, vs => .int8 vs
  | .int16, vs => .int16 vs
  | .int32, vs => .int32 vs
  | .int64, vs => .int64 vs
  | .timestampSecond, vs => .timestampSecond vs
  | .timestampMillisecond, vs => .timestampMillisecond vs
  | .timestampMicrosecond, vs => .timestampMicrosecond vs
  | .timestampNanosecond, vs => .timestampNanosecond vs
  | .date32, vs => .date32 vs
  | .date64, vs => .date64 vs

/-- A key slot that the fan-out loop passes through without failing:
null, or a non-negative index within the dictionary-hash array. -/
def keyOk (n : Nat) : Option Int → Bool
  | none => true
  | some k => decide (0 ≤ k) && decide (k.toNat < n)

/-! ## `pmod` -/

/-- Wrap an integer to the signed 32-bit range (release-mode `i32`
wraparound for the addition `r + n`). -/
def wrap32 (x : Int) : Int :=
  toSigned32 (x % 4294967296).toNat

/-- The source's `pmod(hash: u32, n: usize) -> usize`.  `hash` and
`n` are reinterpreted as `i32` (`n` is truncated), the truncating signed
remainder is corrected by `(r + n) % n` when negative, and the `i32`
result is cast back to `usize` (sign-extension reinterpreted as `u64`).
`none` models a Rust panic: remainder by zero (when `n` truncates to 0),
or the overflowing remainder `i32::MIN % -1`. -/
def pmod (hash : Nat) (n : Nat) : Option Nat :=
  let h : Int := toSigned32 hash
  let m : Int := toSigned32 n
  if m = 0 then none
  else if m = -1 ∧ h = -2147483648 then none
  else
    let r := Int.tmod h m
    let result := if r < 0 then Int.tmod (wrap32 (r + m)) m else r
    some ((result % 18446744073709551616).toNat)

/-! ## Helper lemmas -/

/-- A one-column `create_hashes` call processes exactly that column. -/
theorem create_hashes_singleton (c : Col) (seeds : List Nat) :
    create_hashes [c] seeds = hash_column c seeds := by
  simp only [create_hashes]
  cases hash_column c seeds <;> rfl

/-- For every supported key-index type, the dictionary arm of
`hash_column` is exactly `create_hashes_dictionary` as written in the
source. -/
theorem hash_column_dictionary (kt : KeyType) (ks : List (Option Int)) (values : Col)
    (seeds : List Nat) (hkt : kt.isSupported = true) :
    hash_column (.dictionary kt ks values) seeds =
      create_hashes_dictionary kt ks values seeds := by
  cases kt <;>
    simp_all [hash_column, create_hashes_dictionary, create_hashes_singleton,
      KeyType.isSupported]

/-- The word/tail loop decomposes as a fold of the per-word step over the
4-byte little-endian words followed by a fold over the sign-extended
tail bytes. -/
theorem hashBytesLoop_words (l : List Nat) (h : Nat) :
    hashBytesLoop l h =
      (leTail l).foldl (fun h b => mix_h1 h (mix_k1 (signExtendByte b)))
        ((leWords l).foldl (fun h w => mix_h1 h (mix_k1 w)) h) := by
  induction l, h using hashBytesLoop.induct with
  | case1 b0 b1 b2 b3 rest h1 ih =>
      rw [hashBytesLoop, leWords, leTail, List.foldl_cons]
      exact ih
  | case2 tail h1 hx =>
      rw [hashBytesLoop.eq_2 tail h1 hx, leWords.eq_2 tail hx, leTail.eq_2 tail hx,
        List.foldl_nil]

/-- Pointwise-equal encoders under a value map give the same primitive
row loop. -/
theorem zipHashP_map_congr {α β : Type} (enc : α → List Nat) (enc2 : β → List Nat)
    (f : α → β) (hf : ∀ a, enc2 (f a) = enc a) :
    ∀ (seeds : List Nat) (vs : List (Option α)),
      zipHashP enc2 seeds (vs.map (Option.map f)) = zipHashP enc seeds vs := by
  intro seeds
  induction seeds with
  | nil => intro vs; cases vs <;> rfl
  | cons s ss ih =>
    intro vs
    cases vs with
    | nil => rfl
    | cons v vs =>
      cases v with
      | none => simp [zipHashP, ih]
      | some a => simp [zipHashP, ih, hf]

/-- Truncating remainder negates with the dividend. -/
theorem tmod_neg_left (a b : Int) : Int.tmod (-a) b = -(Int.tmod a b) := by
  rw [Int.tmod_def, Int.tmod_def, Int.neg_tdiv]
  ring

/-! ## Claims -/

/-- Claim C1: `spark_compatible_murmur3_hash` processes the input in
4-byte little-endian words with the per-word step
`k1 = word * 0xcc9e2d51; rotl 15; * 0x1b873593; h1 ^= k1; rotl 13;
h1*5 + 0xe6546b64`, mixes each of the 1-3 trailing bytes individually
after sign-extending it to 32 bits, and finalizes by xoring in the total
byte length followed by the shift/multiply avalanche (all arithmetic
32-bit wrapping); with seed 42 the inputs "", "a", "ab", "abc", "abcd",
"abcde" hash to 142593372, 1485273170, -97053317, 1322437556,
-396302900, 814637928 as signed 32-bit values. -/
theorem murmur3_core_correct :
    (∀ (data : List Nat) (seed : Nat),
        spark_compatible_murmur3_hash data seed = murmur3SpecWords data seed)
    ∧ toSigned32 (spark_compatible_murmur3_hash [] 42) = 142593372
    ∧ toSigned32 (spark_compatible_murmur3_hash [97] 42) = 1485273170
    ∧ toSigned32 (spark_compatible_murmur3_hash [97, 98] 42) = -97053317
    ∧ toSigned32 (spark_compatible_murmur3_hash [97, 98, 99] 42) = 1322437556
    ∧ toSigned32 (spark_compatible_murmur3_hash [97, 98, 99, 100] 42) = -396302900
    ∧ toSigned32 (spark_compatible_murmur3_hash [97, 98, 99, 100, 101] 42) = 814637928 := by
  refine ⟨fun data seed => ?_, ?_, ?_, ?_, ?_, ?_, ?_⟩
  · simp [spark_compatible_murmur3_hash, murmur3SpecWords, hashBytesLoop_words]
  all_goals
    simp [spark_compatible_murmur3_hash, hashBytesLoop, mix_h1, mix_k1, fmix, rotl32,
      word32, signExtendByte, toSigned32]

/-- Claim C4: `create_hashes` encodes non-null Int8/Int16/Int32 values
by sign-extension to a 32-bit little-endian word, Int64 as 64-bit
little-endian, and text as its raw UTF-8 bytes with no length prefix,
feeding the murmur3 core with the row's current seed; the Int8 column
`[1,0,-1,127,-128]` with seeds 42 hashes to
`[0xdea578e3, 0x379fae8f, 0xa0590e3d, 0x43b4d8ed, 0x422a1365]` and the
text column `["hello","bar","","😁","天地"]` with seeds 42 hashes to
`[3286402344, 2486176763, 142593372, 885025535, 2395000894]`. -/
theorem typed_encoding_correct :
    (∀ (x : Int) (s : Nat), create_hashes [Col.int8 [some x]] [s] =
        .ok [spark_compatible_murmur3_hash (encI32 x) s])
    ∧ (∀ (x : Int) (s : Nat), create_hashes [Col.int16 [some x]] [s] =
        .ok [spark_compatible_murmur3_hash (encI32 x) s])
    ∧ (∀ (x : Int) (s : Nat), create_hashes [Col.int32 [some x]] [s] =
        .ok [spark_compatible_murmur3_hash (encI32 x) s])
    ∧ (∀ (x : Int) (s : Nat), create_hashes [Col.int64 [some x]] [s] =
        .ok [spark_compatible_murmur3_hash (encI64 x) s])
    ∧ (∀ (bs : List Nat) (s : Nat), create_hashes [Col.utf8 [some bs]] [s] =
        .ok [spark_compatible_murmur3_hash bs s])
    ∧ create_hashes [Col.int8 [some 1, some 0, some (-1), some 127, some (-128)]]
        [42, 42, 42, 42, 42] =
        .ok [0xdea578e3, 0x379fae8f, 0xa0590e3d, 0x43b4d8ed, 0x422a1365]
    ∧ create_hashes [Col.utf8 [some [104, 101, 108, 108, 111], some [98, 97, 114],
        some [], some [240, 159, 152, 129], some [229, 164, 169, 229, 156, 176]]]
        [42, 42, 42, 42, 42] =
        .ok [3286402344, 2486176763, 142593372, 885025535, 2395000894] := by
  refine ⟨fun x s => ?_, fun x s => ?_, fun x s => ?_, fun x s => ?_, fun bs s => ?_,
    ?_, ?_⟩
  · simp [create_hashes, hash_column, zipHashP]
  · simp [create_hashes, hash_column, zipHashP]
  · simp [create_hashes, hash_column, zipHashP]
  · simp [create_hashes, hash_column, zipHashP]
  · simp [create_hashes, hash_column, zipHashE, HashResult.consSeed]
  all_goals
    simp [create_hashes, hash_column, zipHashP, zipHashE, HashResult.consSeed,
      spark_compatible_murmur3_hash, hashBytesLoop, mix_h1, mix_k1, fmix, rotl32,
      word32, signExtendByte, encI32, natLeBytes]

/-- Claim C6: a Float32/Float64 value equal to 0.0 with negative sign is
re-encoded as the integer zero of matching width before hashing, so for
every seed it hashes like +0.0; every other float value is hashed from
its IEEE-754 bits in little-endian order.  The two whole-column
conjuncts state that folding -0.0 to +0.0 in the input never changes
`create_hashes`' output. -/
theorem float_negative_zero_folding :
    (∀ s : Nat, create_hashes [Col.float32 [some 0x80000000]] [s] =
        create_hashes [Col.float32 [some 0]] [s])
    ∧ (∀ s : Nat, create_hashes [Col.float64 [some 0x8000000000000000]] [s] =
        create_hashes [Col.float64 [some 0]] [s])
    ∧ (∀ (bs : List (Option Nat)) (seeds : List Nat),
        create_hashes [Col.float32 bs] seeds =
          create_hashes
            [Col.float32 (bs.map (Option.map fun b => if b = 0x80000000 then 0 else b))]
            seeds)
    ∧ (∀ (bs : List (Option Nat)) (seeds : List Nat),
        create_hashes [Col.float64 bs] seeds =
          create_hashes
            [Col.float64
              (bs.map (Option.map fun b => if b = 0x8000000000000000 then 0 else b))]
            seeds)
    ∧ (∀ b : Nat, b ≠ 0x80000000 → encF32 b = natLeBytes 4 b)
    ∧ (∀ b : Nat, b ≠ 0x8000000000000000 → encF64 b = natLeBytes 8 b) := by
  refine ⟨fun s => ?_, fun s => ?_, fun bs seeds => ?_, fun bs seeds => ?_,
    fun b hb => by simp [encF32, hb], fun b hb => by simp [encF64, hb]⟩
  · simp only [create_hashes, hash_column, zipHashP]
    norm_num [encF32]
  · simp only [create_hashes, hash_column, zipHashP]
    norm_num [encF64]
  · rw [create_hashes_singleton, create_hashes_singleton]
    simp only [hash_column]
    rw [zipHashP_map_congr encF32 encF32 (fun b => if b = 0x80000000 then 0 else b)]
    intro a
    by_cases h : a = 0x80000000 <;> simp [encF32, h]
  · rw [create_hashes_singleton, create_hashes_singleton]
    simp only [hash_column]
    rw [zipHashP_map_congr encF64 encF64 (fun b => if b = 0x8000000000000000 then 0 else b)]
    intro a
    by_cases h : a = 0x8000000000000000 <;> simp [encF64, h]

/-- Witness for C6 at a concrete input: `0x80000001` is not negative
zero and hashes from its own bits. -/
theorem float_negative_zero_folding_witness :
    (2147483649 : Nat) ≠ 0x80000000 ∧ encF32 2147483649 = natLeBytes 4 2147483649 :=
  ⟨by decide, float_negative_zero_folding.2.2.2.2.1 2147483649 (by decide)⟩

/-- Claim C5 counterexample: the claim quantifies over every positive
`n`, but `pmod` truncates `n` to `i32`.  For the positive
`n = 3221225472` (which truncates to a negative `i32`) and
`hash = 0xFFFFFFFF`, the code returns `2^64 - 1`, which does not lie in
`[0, n)`. -/
theorem pmod_cex :
    pmod 4294967295 3221225472 = some 18446744073709551615 ∧
      ¬ (18446744073709551615 < 3221225472) := ⟨by decide, by decide⟩

/-- Claim C5 (amended: for positive `n < 2^31`, where the `n as i32`
cast is value-preserving): `pmod` reinterprets the hash as signed
32-bit, takes the truncating signed remainder, corrects a negative
remainder by adding `n`, and the result is the Euclidean remainder,
lying in `[0, n)`; reference outputs for `n = 200` as listed. -/
theorem pmod_correct :
    (∀ hash n : Nat, hash < 4294967296 → 0 < n → n < 2147483648 →
        pmod hash n = some ((toSigned32 hash % (n : Int)).toNat) ∧
          (toSigned32 hash % (n : Int)).toNat < n)
    ∧ pmod 0x99f0149d 200 = some 69 ∧ pmod 0x9c67b85d 200 = some 5
    ∧ pmod 0xc8008529 200 = some 193 ∧ pmod 0xa05b5d7b 200 = some 171
    ∧ pmod 0xcd1e64fb 200 = some 115 := by
  refine ⟨fun hash n hh hn hn31 => ?_, by decide, by decide, by decide, by decide, by decide⟩
  have hmodn : n % 4294967296 = n := Nat.mod_eq_of_lt (by omega)
  have hm : toSigned32 n = (n : Int) := by
    simp only [toSigned32, hmodn]
    rw [if_pos (by omega)]
  have hhm : hash % 4294967296 = hash := Nat.mod_eq_of_lt hh
  have hb1 : -2147483648 ≤ toSigned32 hash ∧ toSigned32 hash < 2147483648 := by
    simp only [toSigned32, hhm]
    split <;> omega
  set h : Int := toSigned32 hash with hdef
  have hnpos : (0 : Int) < (n : Int) := by exact_mod_cast hn
  -- the core: the corrected truncating remainder equals the Euclidean remainder
  have key : (if Int.tmod h (n : Int) < 0
      then Int.tmod (wrap32 (Int.tmod h (n : Int) + (n : Int))) (n : Int)
      else Int.tmod h (n : Int)) = h % (n : Int) := by
    rcases le_or_lt 0 h with hpos | hneg
    · rw [Int.tmod_eq_emod hpos (by omega)]
      rw [if_neg (by simp [Int.not_lt]; exact Int.emod_nonneg h (by omega))]
    · have hr : Int.tmod h (n : Int) = -(Int.tmod (-h) (n : Int)) := by
        rw [← tmod_neg_left (-h) (n : Int), neg_neg]
      have ht0 : 0 ≤ Int.tmod (-h) (n : Int) := Int.tmod_nonneg _ (by omega)
      have htn : Int.tmod (-h) (n : Int) < (n : Int) := Int.tmod_lt_of_pos _ hnpos
      have hte : Int.tmod (-h) (n : Int) = (-h) % (n : Int) :=
        Int.tmod_eq_emod (by omega) (by omega)
      set t : Int := Int.tmod (-h) (n : Int) with htdef
      have hdecomp : h = ((n : Int) - t) + (n : Int) * (-((-h) / (n : Int)) - 1) := by
        have := Int.ediv_add_emod (-h) (n : Int)
        rw [← hte] at this
        ring_nf
        omega
      rcases eq_or_lt_of_le ht0 with ht0' | htpos
    -- t = 0: the remainder is already 0
      · rw [if_neg (by omega)]
        rw [hr, ← ht0']
        rw [hdecomp, ← ht0']
        simp [Int.add_mul_emod_self_left]
      · rw [if_pos (by omega)]
        have hw : wrap32 (Int.tmod h (n : Int) + (n : Int)) = (n : Int) - t := by
          rw [hr]
          have hlt : (-t + (n : Int)) % 4294967296 = -t + (n : Int) :=
            Int.emod_eq_of_lt (by omega) (by omega)
          simp only [wrap32, toSigned32, hlt]
          have h2 : ((-t + (n : Int)).toNat) % 4294967296 = (-t + (n : Int)).toNat := by
            omega
          rw [h2, if_pos (by omega)]
          omega
        rw [hw, Int.tmod_eq_of_lt (by omega) (by omega)]
        conv_rhs => rw [hdecomp]
        rw [Int.add_mul_emod_self_left, Int.emod_eq_of_lt (by omega) (by omega)]
  have hhb : 0 ≤ h % (n : Int) ∧ h % (n : Int) < (n : Int) :=
    ⟨Int.emod_nonneg h (by omega), Int.emod_lt_of_pos h hnpos⟩
  simp only [pmod, ← hdef, hm]
  rw [if_neg (by omega), if_neg (by rintro ⟨h1, h2⟩; omega), key]
  constructor
  · congr 1
    congr 1
    rw [Int.emod_eq_of_lt (by omega) (by omega)]
  · omega

/-- Witness for C5 at a concrete input. -/
theorem pmod_correct_witness :
    (5 : Nat) < 4294967296 ∧ (0 : Nat) < 7 ∧ (7 : Nat) < 2147483648 ∧
      (pmod 5 7 = some ((toSigned32 5 % (7 : Int)).toNat) ∧
        (toSigned32 5 % (7 : Int)).toNat < 7) :=
  ⟨by decide, by decide, by decide, pmod_correct.1 5 7 (by decide) (by decide) (by decide)⟩

/-- Claim C9 counterexample: `create_hashes` on an Int8 column followed
by an unsupported column returns an error, but the seed buffer has
already been overwritten by the first column (3735386339 is the hash of
Int8 value 1 from seed 42), so the caller-supplied seed array IS left
partially updated by the failed call. -/
theorem error_partial_update_cex :
    create_hashes [Col.int8 [some 1], Col.unsupported "Map"] [42] =
      .err (.unsupportedDataType "Map") [3735386339] ∧ (3735386339 : Nat) ≠ 42 := by
  refine ⟨?_, by decide⟩
  simp [create_hashes, hash_column, zipHashP, spark_compatible_murmur3_hash,
    hashBytesLoop, mix_h1, mix_k1, fmix, rotl32, word32, signExtendByte,
    encI32, natLeBytes]

/-- Claim C9 (amended): an error is surfaced immediately — once a column
fails, `create_hashes` returns that error as-is and processes no later
column — but the seed buffer may retain updates made by columns (and
rows) processed before the failure. -/
theorem error_short_circuits (c : Col) (cs : List Col) (seeds : List Nat)
    (e : HashErr) (buf : List Nat) (hc : hash_column c seeds = .err e buf) :
    create_hashes (c :: cs) seeds = .err e buf := by
  simp [create_hashes, hc]

/-- Witness for C9's amended theorem at a concrete input. -/
theorem error_short_circuits_witness :
    hash_column (Col.unsupported "Map") [42] =
        .err (.unsupportedDataType "Map") [42] ∧
      create_hashes [Col.unsupported "Map", Col.int8 [some 3]] [42] =
        .err (.unsupportedDataType "Map") [42] :=
  ⟨by decide, error_short_circuits (Col.unsupported "Map") [Col.int8 [some 3]] [42]
    (.unsupportedDataType "Map") [42] (by decide)⟩


/-! ## Row-level lemmas for the per-column loops -/

theorem zipHashP_nil_left {α : Type} (enc : α → List Nat) (vs : List (Option α)) :
    zipHashP enc [] vs = [] := by cases vs <;> rfl

theorem zipHashP_nil_right {α : Type} (enc : α → List Nat) (ss : List Nat) :
    zipHashP enc ss [] = ss := by cases ss <;> rfl

theorem zipHashE_nil_left {α : Type} (enc : α → List Nat) (vs : List (Option α)) :
    zipHashE enc [] vs = .ok [] := by cases vs <;> rfl

theorem fanOutKeys_nil_right (dh : List Nat) (tn : String) (ss : List Nat) :
    fanOutKeys dh tn ss [] = .ok ss := by cases ss <;> rfl

theorem consSeed_ok (r : HashResult) (c : Nat) (out : List Nat) :
    r.consSeed c = .ok out ↔ ∃ l, r = .ok l ∧ out = c :: l := by
  cases r with
  | ok l =>
    simp only [HashResult.consSeed, HashResult.ok.injEq]
    exact ⟨fun h => ⟨l, rfl, h.symm⟩, by rintro ⟨l2, rfl, rfl⟩; rfl⟩
  | err e l => simp [HashResult.consSeed]
  | panicked => simp [HashResult.consSeed]

theorem zipHashP_null {α : Type} (enc : α → List Nat) :
    ∀ (seeds : List Nat) (vs : List (Option α)) (i : Nat),
      vs.getD i none = none →
      (zipHashP enc seeds vs)[i]? = seeds[i]? ∧
      zipHashP enc (seeds.eraseIdx i) (vs.eraseIdx i) = (zipHashP enc seeds vs).eraseIdx i := by
  intro seeds
  induction seeds with
  | nil =>
    intro vs i h
    simp [zipHashP_nil_left, List.eraseIdx_nil]
  | cons s ss ih =>
    intro vs i h
    cases vs with
    | nil =>
      simp [zipHashP_nil_right, List.eraseIdx_nil]
    | cons v vs2 =>
      cases i with
      | zero =>
        simp only [List.getD_cons_zero] at h
        subst h
        exact ⟨by simp [zipHashP], by simp [zipHashP]⟩
      | succ j =>
        simp only [List.getD_cons_succ] at h
        obtain ⟨h1, h2⟩ := ih vs2 j h
        cases v with
        | none =>
          refine ⟨by simpa [zipHashP] using h1, ?_⟩
          simp [zipHashP, List.eraseIdx_cons_succ, h2]
        | some a =>
          refine ⟨by simpa [zipHashP] using h1, ?_⟩
          simp [zipHashP, List.eraseIdx_cons_succ, h2]

theorem zipHashE_null {α : Type} (enc : α → List Nat) :
    ∀ (seeds : List Nat) (vs : List (Option α)) (i : Nat) (out : List Nat),
      zipHashE enc seeds vs = .ok out → vs.getD i none = none →
      out[i]? = seeds[i]? ∧
      zipHashE enc (seeds.eraseIdx i) (vs.eraseIdx i) = .ok (out.eraseIdx i) := by
  intro seeds
  induction seeds with
  | nil =>
    intro vs i out hok h
    rw [zipHashE_nil_left] at hok
    injection hok with hout
    subst hout
    simp [zipHashE_nil_left, List.eraseIdx_nil]
  | cons s ss ih =>
    intro vs i out hok h
    cases vs with
    | nil => simp [zipHashE] at hok
    | cons v vs2 =>
      cases i with
      | zero =>
        simp only [List.getD_cons_zero] at h
        subst h
        rw [show zipHashE enc (s :: ss) (none :: vs2) = (zipHashE enc ss vs2).consSeed s
          from rfl, consSeed_ok] at hok
        obtain ⟨l, hl, rfl⟩ := hok
        exact ⟨by simp, by simpa [zipHashE] using hl⟩
      | succ j =>
        simp only [List.getD_cons_succ] at h
        cases v with
        | none =>
          rw [show zipHashE enc (s :: ss) (none :: vs2) = (zipHashE enc ss vs2).consSeed s
            from rfl, consSeed_ok] at hok
          obtain ⟨l, hl, rfl⟩ := hok
          obtain ⟨h1, h2⟩ := ih vs2 j l hl h
          refine ⟨by simpa using h1, ?_⟩
          simp only [List.eraseIdx_cons_succ]
          rw [show zipHashE enc (s :: ss.eraseIdx j) (none :: vs2.eraseIdx j) =
            (zipHashE enc (ss.eraseIdx j) (vs2.eraseIdx j)).consSeed s from rfl, h2]
          rfl
        | some a =>
          rw [show zipHashE enc (s :: ss) (some a :: vs2) =
            (zipHashE enc ss vs2).consSeed (spark_compatible_murmur3_hash (enc a) s)
            from rfl, consSeed_ok] at hok
          obtain ⟨l, hl, rfl⟩ := hok
          obtain ⟨h1, h2⟩ := ih vs2 j l hl h
          refine ⟨by simpa using h1, ?_⟩
          simp only [List.eraseIdx_cons_succ]
          rw [show zipHashE enc (s :: ss.eraseIdx j) (some a :: vs2.eraseIdx j) =
            (zipHashE enc (ss.eraseIdx j) (vs2.eraseIdx j)).consSeed
              (spark_compatible_murmur3_hash (enc a) s) from rfl, h2]
          rfl

theorem fanOutKeys_null (dh : List Nat) (tn : String) :
    ∀ (seeds : List Nat) (ks : List (Option Int)) (i : Nat) (out : List Nat),
      fanOutKeys dh tn seeds ks = .ok out → ks.getD i none = none →
      out[i]? = seeds[i]? ∧
      fanOutKeys dh tn (seeds.eraseIdx i) (ks.eraseIdx i) = .ok (out.eraseIdx i) := by
  intro seeds
  induction seeds with
  | nil =>
    intro ks i out hok h
    rw [show fanOutKeys dh tn [] ks = .ok [] by cases ks <;> rfl] at hok
    injection hok with hout
    subst hout
    constructor
    · rfl
    · rw [List.eraseIdx_nil, show fanOutKeys dh tn [] (ks.eraseIdx i) = .ok [] by
        cases ks.eraseIdx i <;> rfl]
  | cons s ss ih =>
    intro ks i out hok h
    cases ks with
    | nil =>
      rw [fanOutKeys_nil_right] at hok
      injection hok with hout
      subst hout
      simp [fanOutKeys_nil_right, List.eraseIdx_nil]
    | cons k ks2 =>
      cases i with
      | zero =>
        simp only [List.getD_cons_zero] at h
        subst h
        rw [show fanOutKeys dh tn (s :: ss) (none :: ks2) =
          (fanOutKeys dh tn ss ks2).consSeed s from rfl, consSeed_ok] at hok
        obtain ⟨l, hl, rfl⟩ := hok
        exact ⟨by simp, by simpa using hl⟩
      | succ j =>
        simp only [List.getD_cons_succ] at h
        cases k with
        | none =>
          rw [show fanOutKeys dh tn (s :: ss) (none :: ks2) =
            (fanOutKeys dh tn ss ks2).consSeed s from rfl, consSeed_ok] at hok
          obtain ⟨l, hl, rfl⟩ := hok
          obtain ⟨h1, h2⟩ := ih ks2 j l hl h
          refine ⟨by simpa using h1, ?_⟩
          simp only [List.eraseIdx_cons_succ]
          rw [show fanOutKeys dh tn (s :: ss.eraseIdx j) (none :: ks2.eraseIdx j) =
            (fanOutKeys dh tn (ss.eraseIdx j) (ks2.eraseIdx j)).consSeed s from rfl, h2]
          rfl
        | some k =>
          rw [show fanOutKeys dh tn (s :: ss) (some k :: ks2) =
            (if k < 0 then .err (.keyConversionFailure k tn) (s :: ss)
             else match dh[k.toNat]? with
              | some hv => (fanOutKeys dh tn ss ks2).consSeed hv
              | none => .panicked) from rfl] at hok
          by_cases hk : k < 0
          · rw [if_pos hk] at hok
            simp at hok
          · rw [if_neg hk] at hok
            cases hd : dh[k.toNat]? with
            | none => rw [hd] at hok; simp at hok
            | some hv =>
              rw [hd] at hok
              simp only at hok
              rw [consSeed_ok] at hok
              obtain ⟨l, hl, rfl⟩ := hok
              obtain ⟨h1, h2⟩ := ih ks2 j l hl h
              refine ⟨by simpa using h1, ?_⟩
              simp only [List.eraseIdx_cons_succ]
              rw [show fanOutKeys dh tn (s :: ss.eraseIdx j) (some k :: ks2.eraseIdx j) =
                (if k < 0 then .err (.keyConversionFailure k tn) (s :: ss.eraseIdx j)
                 else match dh[k.toNat]? with
                  | some hv => (fanOutKeys dh tn (ss.eraseIdx j) (ks2.eraseIdx j)).consSeed hv
                  | none => .panicked) from rfl, if_neg hk, hd]
              simp only
              rw [h2]
              rfl

theorem hash_column_dict_ok {kt : KeyType} {ks : List (Option Int)} {v : Col}
    {seeds out : List Nat}
    (hok : hash_column (.dictionary kt ks v) seeds = .ok out) :
    kt.isSupported = true ∧
    ∃ dh, hash_column v (List.replicate v.numRows 0) = .ok dh ∧
      fanOutKeys dh (Col.dictionary kt ks v).typeName seeds ks = .ok out := by
  cases kt
  case other name => simp [hash_column] at hok
  all_goals
    refine ⟨rfl, ?_⟩
    simp only [hash_column] at hok
    cases hin : hash_column v (List.replicate v.numRows 0) with
    | ok dh =>
      rw [hin] at hok
      simp only at hok
      exact ⟨dh, rfl, hok⟩
    | err e l => rw [hin] at hok; simp at hok
    | panicked => rw [hin] at hok; simp at hok

theorem hash_column_dict_build {kt : KeyType} (ks : List (Option Int)) {v : Col}
    (seeds : List Nat) {r : HashResult} {dh : List Nat}
    (hkt : kt.isSupported = true)
    (hdh : hash_column v (List.replicate v.numRows 0) = .ok dh)
    (hf : fanOutKeys dh (Col.dictionary kt ks v).typeName seeds ks = r) :
    hash_column (.dictionary kt ks v) seeds = r := by
  cases kt <;> simp_all [hash_column, KeyType.isSupported]

theorem rowNullP {α : Type} (enc : α → List Nat) (vs : List (Option α))
    (seeds out : List Nat) (i : Nat)
    (hok : HashResult.ok (zipHashP enc seeds vs) = HashResult.ok out)
    (hnull : (vs.getD i none).isNone = true) :
    out[i]? = seeds[i]? ∧
      HashResult.ok (zipHashP enc (seeds.eraseIdx i) (vs.eraseIdx i)) =
        HashResult.ok (out.eraseIdx i) := by
  injection hok with hout
  subst hout
  rw [Option.isNone_iff_eq_none] at hnull
  obtain ⟨h1, h2⟩ := zipHashP_null enc seeds vs i hnull
  exact ⟨h1, by rw [h2]⟩

theorem rowNullE {α : Type} (enc : α → List Nat) (vs : List (Option α))
    (seeds out : List Nat) (i : Nat)
    (hok : zipHashE enc seeds vs = .ok out)
    (hnull : (vs.getD i none).isNone = true) :
    out[i]? = seeds[i]? ∧
      zipHashE enc (seeds.eraseIdx i) (vs.eraseIdx i) = .ok (out.eraseIdx i) := by
  rw [Option.isNone_iff_eq_none] at hnull
  exact zipHashE_null enc seeds vs i out hok hnull

/-- Claim C3: for every supported column (a null key playing the role of
a null value for a dictionary column) and every row i whose value is
null, a successful `create_hashes` pass over that column leaves seed i
exactly unchanged, and the other rows are hashed as if the null row were
absent: erasing row i from both the column and the seed buffer yields
the same output with row i erased. -/
theorem null_invariance :
    ∀ (c : Col) (seeds out : List Nat) (i : Nat),
      create_hashes [c] seeds = .ok out → c.isNullAt i = true →
      out[i]? = seeds[i]? ∧
      create_hashes [c.eraseRow i] (seeds.eraseIdx i) = .ok (out.eraseIdx i) := by
  intro c seeds out i hok hnull
  rw [create_hashes_singleton] at hok
  rw [create_hashes_singleton]
  cases c with
  | boolean vs => exact rowNullE encBool vs seeds out i hok hnull
  | int8 vs => exact rowNullP encI32 vs seeds out i hok hnull
  | int16 vs => exact rowNullP encI32 vs seeds out i hok hnull
  | int32 vs => exact rowNullP encI32 vs seeds out i hok hnull
  | int64 vs => exact rowNullP encI64 vs seeds out i hok hnull
  | float32 vs => exact rowNullP encF32 vs seeds out i hok hnull
  | float64 vs => exact rowNullP encF64 vs seeds out i hok hnull
  | timestampSecond vs => exact rowNullP encI64 vs seeds out i hok hnull
  | timestampMillisecond vs => exact rowNullP encI64 vs seeds out i hok hnull
  | timestampMicrosecond vs => exact rowNullP encI64 vs seeds out i hok hnull
  | timestampNanosecond vs => exact rowNullP encI64 vs seeds out i hok hnull
  | date32 vs => exact rowNullP encI32 vs seeds out i hok hnull
  | date64 vs => exact rowNullP encI64 vs seeds out i hok hnull
  | utf8 vs => exact rowNullE (fun bs => bs) vs seeds out i hok hnull
  | largeUtf8 vs => exact rowNullE (fun bs => bs) vs seeds out i hok hnull
  | binary vs => exact rowNullE (fun bs => bs) vs seeds out i hok hnull
  | largeBinary vs => exact rowNullE (fun bs => bs) vs seeds out i hok hnull
  | fixedSizeBinary w vs => exact rowNullE (fun bs => bs) vs seeds out i hok hnull
  | decimal128 p sc vs => exact rowNullE encI128 vs seeds out i hok hnull
  | dictionary kt ks v =>
    simp only [Col.isNullAt, Option.isNone_iff_eq_none] at hnull
    obtain ⟨hsup, dh, hdh, hf⟩ := hash_column_dict_ok hok
    obtain ⟨h1, h2⟩ := fanOutKeys_null dh _ seeds ks i out hf hnull
    refine ⟨h1, ?_⟩
    simp only [Col.eraseRow]
    exact hash_column_dict_build (ks.eraseIdx i) (seeds.eraseIdx i) hsup hdh h2
  | unsupported n => simp [hash_column] at hok

/-- Witness for C3 at a concrete input. -/
theorem null_invariance_witness :
    create_hashes [Col.int8 [some 1, none]] [42, 7] = .ok [3735386339, 7] ∧
      Col.isNullAt (Col.int8 [some 1, none]) 1 = true ∧
      (([3735386339, 7] : List Nat)[1]? = ([42, 7] : List Nat)[1]? ∧
        create_hashes [(Col.int8 [some 1, none]).eraseRow 1]
            (([42, 7] : List Nat).eraseIdx 1) =
          .ok (([3735386339, 7] : List Nat).eraseIdx 1)) := by
  have hok : create_hashes [Col.int8 [some 1, none]] [42, 7] = .ok [3735386339, 7] := by
    simp [create_hashes, hash_column, zipHashP, spark_compatible_murmur3_hash,
      hashBytesLoop, mix_h1, mix_k1, fmix, rotl32, word32, signExtendByte,
      encI32, natLeBytes]
  exact ⟨hok, by decide, null_invariance (Col.int8 [some 1, none]) [42, 7]
    [3735386339, 7] 1 hok (by decide)⟩

/-! ## Seed-buffer-driven row count (C10) -/

theorem zipHashP_length {α : Type} (enc : α → List Nat) :
    ∀ (seeds : List Nat) (vs : List (Option α)),
      (zipHashP enc seeds vs).length = seeds.length := by
  intro seeds
  induction seeds with
  | nil => intro vs; simp [zipHashP_nil_left]
  | cons s ss ih =>
    intro vs
    cases vs with
    | nil => rw [zipHashP_nil_right]
    | cons v vs2 => cases v <;> simp [zipHashP, ih]

theorem zipHashP_surplus {α : Type} (enc : α → List Nat) :
    ∀ (seeds : List Nat) (vs : List (Option α)) (i : Nat),
      vs.length ≤ i → (zipHashP enc seeds vs)[i]? = seeds[i]? := by
  intro seeds
  induction seeds with
  | nil => intro vs i hle; simp [zipHashP_nil_left]
  | cons s ss ih =>
    intro vs i hle
    cases vs with
    | nil => rw [zipHashP_nil_right]
    | cons v vs2 =>
      cases i with
      | zero => simp at hle
      | succ j =>
        cases v with
        | none =>
          simp only [zipHashP, List.getElem?_cons_succ]
          exact ih vs2 j (by simpa using hle)
        | some a =>
          simp only [zipHashP, List.getElem?_cons_succ]
          exact ih vs2 j (by simpa using hle)

theorem zipHashP_take {α : Type} (enc : α → List Nat) :
    ∀ (seeds : List Nat) (vs : List (Option α)),
      zipHashP enc seeds (vs.take seeds.length) = zipHashP enc seeds vs := by
  intro seeds
  induction seeds with
  | nil => intro vs; simp [zipHashP_nil_left]
  | cons s ss ih =>
    intro vs
    cases vs with
    | nil => simp
    | cons v vs2 =>
      simp only [List.length_cons, List.take_succ_cons]
      cases v <;> simp [zipHashP, ih]

theorem prim_hash_column (pk : PrimKind) (vals : List (Option Int)) (seeds : List Nat) :
    hash_column (pk.toCol vals) seeds = .ok (zipHashP pk.enc seeds vals) := by
  cases pk <;> rfl

/-- Claim C10: the number of rows processed is the seed buffer's length,
and the length-equality invariant is never checked.  For every
primitive-typed column (the integer kinds of `hash_array_primitive!` and
the two float kinds) with no nulls: the call succeeds, the output length
is the seed buffer's length, only the first `seeds.length` rows are
hashed (truncating the column to that length changes nothing), and when
the seed buffer is longer than the column the excess entries are left
unchanged, with no error reported. -/
theorem seed_buffer_drives_rows :
    (∀ (pk : PrimKind) (vals : List (Option Int)) (seeds : List Nat),
        (∀ v ∈ vals, v.isSome = true) →
        ∃ out, create_hashes [pk.toCol vals] seeds = .ok out
          ∧ out.length = seeds.length
          ∧ (∀ i, vals.length ≤ i → out[i]? = seeds[i]?)
          ∧ create_hashes [pk.toCol (vals.take seeds.length)] seeds = .ok out)
    ∧ (∀ (bs : List (Option Nat)) (seeds : List Nat),
        (∀ b ∈ bs, b.isSome = true) →
        ∃ out, create_hashes [Col.float32 bs] seeds = .ok out
          ∧ out.length = seeds.length
          ∧ (∀ i, bs.length ≤ i → out[i]? = seeds[i]?)
          ∧ create_hashes [Col.float32 (bs.take seeds.length)] seeds = .ok out)
    ∧ (∀ (bs : List (Option Nat)) (seeds : List Nat),
        (∀ b ∈ bs, b.isSome = true) →
        ∃ out, create_hashes [Col.float64 bs] seeds = .ok out
          ∧ out.length = seeds.length
          ∧ (∀ i, bs.length ≤ i → out[i]? = seeds[i]?)
          ∧ create_hashes [Col.float64 (bs.take seeds.length)] seeds = .ok out) := by
  refine ⟨fun pk vals seeds _ => ?_, fun bs seeds _ => ?_, fun bs seeds _ => ?_⟩
  · refine ⟨zipHashP pk.enc seeds vals, ?_, zipHashP_length _ _ _,
      fun i hi => zipHashP_surplus _ _ _ i hi, ?_⟩
    · rw [create_hashes_singleton]; exact prim_hash_column pk vals seeds
    · rw [create_hashes_singleton, prim_hash_column, zipHashP_take]
  · refine ⟨zipHashP encF32 seeds bs, ?_, zipHashP_length _ _ _,
      fun i hi => zipHashP_surplus _ _ _ i hi, ?_⟩
    · rw [create_hashes_singleton]; rfl
    · rw [create_hashes_singleton]
      show HashResult.ok (zipHashP encF32 seeds (bs.take seeds.length)) = _
      rw [zipHashP_take]
  · refine ⟨zipHashP encF64 seeds bs, ?_, zipHashP_length _ _ _,
      fun i hi => zipHashP_surplus _ _ _ i hi, ?_⟩
    · rw [create_hashes_singleton]; rfl
    · rw [create_hashes_singleton]
      show HashResult.ok (zipHashP encF64 seeds (bs.take seeds.length)) = _
      rw [zipHashP_take]

/-- Witness for C10 at a concrete input: a three-row Int8 column hashed
with a one-slot seed buffer. -/
theorem seed_buffer_drives_rows_witness :
    (∀ v ∈ [some (1 : Int), some 2, some 3], v.isSome = true) ∧
      (∃ out, create_hashes [PrimKind.toCol .int8 [some 1, some 2, some 3]] [42] = .ok out
        ∧ out.length = ([42] : List Nat).length
        ∧ (∀ i, ([some (1 : Int), some 2, some 3] : List (Option Int)).length ≤ i →
            out[i]? = ([42] : List Nat)[i]?)
        ∧ create_hashes [PrimKind.toCol .int8
            (([some (1 : Int), some 2, some 3] : List (Option Int)).take
              ([42] : List Nat).length)] [42] = .ok out) :=
  ⟨by decide, seed_buffer_drives_rows.1 .int8 [some 1, some 2, some 3] [42] (by decide)⟩

/-! ## Unsupported-type errors (C8) -/

theorem consSeed_err (r : HashResult) (c : Nat) (e : HashErr) (buf : List Nat) :
    r.consSeed c = .err e buf ↔ ∃ l, r = .err e l ∧ buf = c :: l := by
  cases r with
  | ok l => simp [HashResult.consSeed]
  | err e2 l =>
    simp only [HashResult.consSeed, HashResult.err.injEq]
    constructor
    · rintro ⟨rfl, rfl⟩; exact ⟨l, ⟨rfl, rfl⟩, rfl⟩
    · rintro ⟨l2, ⟨rfl, rfl⟩, rfl⟩; exact ⟨rfl, rfl⟩
  | panicked => simp [HashResult.consSeed]

theorem zipHashE_not_err {α : Type} (enc : α → List Nat) :
    ∀ (seeds : List Nat) (vs : List (Option α)) (e : HashErr) (buf : List Nat),
      zipHashE enc seeds vs ≠ .err e buf := by
  intro seeds
  induction seeds with
  | nil => intro vs e buf; rw [zipHashE_nil_left]; simp
  | cons s ss ih =>
    intro vs e buf
    cases vs with
    | nil => simp [zipHashE]
    | cons v vs2 =>
      cases v with
      | none =>
        rw [show zipHashE enc (s :: ss) (none :: vs2) =
          (zipHashE enc ss vs2).consSeed s from rfl]
        intro hc
        obtain ⟨l, hl, _⟩ := (consSeed_err _ _ _ _).1 hc
        exact ih vs2 e l hl
      | some a =>
        rw [show zipHashE enc (s :: ss) (some a :: vs2) =
          (zipHashE enc ss vs2).consSeed (spark_compatible_murmur3_hash (enc a) s)
          from rfl]
        intro hc
        obtain ⟨l, hl, _⟩ := (consSeed_err _ _ _ _).1 hc
        exact ih vs2 e l hl

theorem fanOutKeys_err_shape (dh : List Nat) (tn : String) :
    ∀ (seeds : List Nat) (ks : List (Option Int)) (e : HashErr) (buf : List Nat),
      fanOutKeys dh tn seeds ks = .err e buf →
      ∃ k, e = .keyConversionFailure k tn := by
  intro seeds
  induction seeds with
  | nil =>
    intro ks e buf h
    rw [show fanOutKeys dh tn [] ks = .ok [] by cases ks <;> rfl] at h
    simp at h
  | cons s ss ih =>
    intro ks e buf h
    cases ks with
    | nil => rw [fanOutKeys_nil_right] at h; simp at h
    | cons k ks2 =>
      cases k with
      | none =>
        rw [show fanOutKeys dh tn (s :: ss) (none :: ks2) =
          (fanOutKeys dh tn ss ks2).consSeed s from rfl] at h
        obtain ⟨l, hl, _⟩ := (consSeed_err _ _ _ _).1 h
        exact ih ks2 e l hl
      | some k =>
        rw [show fanOutKeys dh tn (s :: ss) (some k :: ks2) =
          (if k < 0 then .err (.keyConversionFailure k tn) (s :: ss)
           else match dh[k.toNat]? with
            | some hv => (fanOutKeys dh tn ss ks2).consSeed hv
            | none => .panicked) from rfl] at h
        by_cases hk : k < 0
        · rw [if_pos hk] at h
          injection h with he _
          exact ⟨k, he.symm⟩
        · rw [if_neg hk] at h
          cases hd : dh[k.toNat]? with
          | none => rw [hd] at h; simp at h
          | some hv =>
            rw [hd] at h
            simp only at h
            obtain ⟨l, hl, _⟩ := (consSeed_err _ _ _ _).1 h
            exact ih ks2 e l hl

theorem hash_column_supported_err :
    ∀ (c : Col) (seeds : List Nat) (e : HashErr) (buf : List Nat),
      c.supportedType = true → hash_column c seeds = .err e buf →
      ∃ k t, e = .keyConversionFailure k t := by
  intro c
  induction c with
  | boolean vs => intro seeds e buf _ h; exact absurd h (zipHashE_not_err _ _ _ _ _)
  | int8 vs => intro seeds e buf _ h; simp [hash_column] at h
  | int16 vs => intro seeds e buf _ h; simp [hash_column] at h
  | int32 vs => intro seeds e buf _ h; simp [hash_column] at h
  | int64 vs => intro seeds e buf _ h; simp [hash_column] at h
  | float32 vs => intro seeds e buf _ h; simp [hash_column] at h
  | float64 vs => intro seeds e buf _ h; simp [hash_column] at h
  | timestampSecond vs => intro seeds e buf _ h; simp [hash_column] at h
  | timestampMillisecond vs => intro seeds e buf _ h; simp [hash_column] at h
  | timestampMicrosecond vs => intro seeds e buf _ h; simp [hash_column] at h
  | timestampNanosecond vs => intro seeds e buf _ h; simp [hash_column] at h
  | date32 vs => intro seeds e buf _ h; simp [hash_column] at h
  | date64 vs => intro seeds e buf _ h; simp [hash_column] at h
  | utf8 vs => intro seeds e buf _ h; exact absurd h (zipHashE_not_err _ _ _ _ _)
  | largeUtf8 vs => intro seeds e buf _ h; exact absurd h (zipHashE_not_err _ _ _ _ _)
  | binary vs => intro seeds e buf _ h; exact absurd h (zipHashE_not_err _ _ _ _ _)
  | largeBinary vs => intro seeds e buf _ h; exact absurd h (zipHashE_not_err _ _ _ _ _)
  | fixedSizeBinary w vs => intro seeds e buf _ h; exact absurd h (zipHashE_not_err _ _ _ _ _)
  | decimal128 p sc vs => intro seeds e buf _ h; exact absurd h (zipHashE_not_err _ _ _ _ _)
  | dictionary kt ks v ih =>
    intro seeds e buf hsup h
    simp only [Col.supportedType, Bool.and_eq_true] at hsup
    obtain ⟨hkt, hv⟩ := hsup
    cases kt
    case other name => simp [KeyType.isSupported] at hkt
    all_goals
      simp only [hash_column] at h
      cases hin : hash_column v (List.replicate v.numRows 0) with
      | ok dh =>
        rw [hin] at h
        simp only at h
        obtain ⟨k, hk⟩ := fanOutKeys_err_shape dh _ seeds ks e buf h
        exact ⟨k, _, hk⟩
      | err e2 l =>
        rw [hin] at h
        simp only at h
        injection h with he hbuf
        subst he
        exact ih _ e2 l hv hin
      | panicked => rw [hin] at h; simp at h
  | unsupported n => intro seeds e buf hsup h; simp [Col.supportedType] at hsup

theorem create_hashes_supported_err :
    ∀ (cols : List Col) (seeds : List Nat) (e : HashErr) (buf : List Nat),
      (∀ c ∈ cols, c.supportedType = true) →
      create_hashes cols seeds = .err e buf → e.isUnsupported = false := by
  intro cols
  induction cols with
  | nil => intro seeds e buf _ h; simp [create_hashes] at h
  | cons c cs ih =>
    intro seeds e buf hsup h
    rw [show create_hashes (c :: cs) seeds =
      (match hash_column c seeds with
        | .ok s2 => create_hashes cs s2
        | r => r) from rfl] at h
    cases hc : hash_column c seeds with
    | ok s2 =>
      rw [hc] at h
      simp only at h
      exact ih s2 e buf (fun c2 hm => hsup c2 (List.mem_cons_of_mem _ hm)) h
    | err e2 l =>
      rw [hc] at h
      simp only at h
      injection h with he hbuf
      subst he
      obtain ⟨k, t, hk⟩ :=
        hash_column_supported_err c seeds e2 l (hsup c (List.mem_cons_self c cs)) hc
      subst hk
      rfl
    | panicked => rw [hc] at h; simp at h

/-- Claim C8: a column whose logical type is outside the supported
closed set, and a dictionary column whose key-index type is outside the
supported key set, make `create_hashes` fail with an unsupported-type
error carrying the offending type descriptor; and for columns built
entirely from the supported set (dictionary key types signed and
unsigned 8/16/32/64 included) no unsupported-type error is ever
produced (any returned error is a key-conversion failure). -/
theorem unsupported_type_errors :
    (∀ (name : String) (seeds : List Nat),
        create_hashes [Col.unsupported name] seeds =
          .err (.unsupportedDataType name) seeds)
    ∧ (∀ (name : String) (ks : List (Option Int)) (v : Col) (seeds : List Nat),
        create_hashes [Col.dictionary (KeyType.other name) ks v] seeds =
          .err (.unsupportedDictionaryType
            ("Dictionary(" ++ name ++ ", " ++ v.typeName ++ ")")) seeds)
    ∧ (∀ (cols : List Col) (seeds : List Nat) (e : HashErr) (buf : List Nat),
        (∀ c ∈ cols, c.supportedType = true) →
        create_hashes cols seeds = .err e buf → e.isUnsupported = false) := by
  refine ⟨fun name seeds => ?_, fun name ks v seeds => ?_, create_hashes_supported_err⟩
  · rw [create_hashes_singleton]; rfl
  · rw [create_hashes_singleton]; rfl

/-- Witness for C8: a fully supported dictionary column errors only with
a key-conversion failure, which is not an unsupported-type error. -/
theorem unsupported_type_errors_witness :
    (∀ c ∈ [Col.dictionary KeyType.int32 [some (-1)] (Col.int8 [some 5])],
        c.supportedType = true) ∧
      HashErr.isUnsupported
        (HashErr.keyConversionFailure (-1) "Dictionary(Int32, Int8)") = false :=
  ⟨by decide,
    unsupported_type_errors.2.2
      [Col.dictionary KeyType.int32 [some (-1)] (Col.int8 [some 5])] [42]
      (HashErr.keyConversionFailure (-1) "Dictionary(Int32, Int8)") [42]
      (by decide) (by decide)⟩

/-! ## Dictionary key failures (C7) -/

theorem fanOutKeys_first_bad (dh : List Nat) (tn : String) :
    ∀ (i : Nat) (seeds : List Nat) (ks : List (Option Int)) (k : Int),
      (∀ j, j < i → keyOk dh.length (ks.getD j none) = true) →
      i < seeds.length → ks.getD i none = some k →
      (k < 0 → ∃ buf, fanOutKeys dh tn seeds ks =
          .err (.keyConversionFailure k tn) buf) ∧
      (0 ≤ k → dh.length ≤ k.toNat → fanOutKeys dh tn seeds ks = .panicked) := by
  intro i
  induction i with
  | zero =>
    intro seeds ks k hpre hlen hk
    cases seeds with
    | nil => simp at hlen
    | cons s ss =>
      cases ks with
      | nil => simp [List.getD] at hk
      | cons k0 ks2 =>
        simp only [List.getD_cons_zero] at hk
        subst hk
        constructor
        · intro hneg
          refine ⟨s :: ss, ?_⟩
          rw [show fanOutKeys dh tn (s :: ss) (some k :: ks2) =
            (if k < 0 then .err (.keyConversionFailure k tn) (s :: ss)
             else match dh[k.toNat]? with
              | some hv => (fanOutKeys dh tn ss ks2).consSeed hv
              | none => .panicked) from rfl, if_pos hneg]
        · intro hpos hlen2
          rw [show fanOutKeys dh tn (s :: ss) (some k :: ks2) =
            (if k < 0 then .err (.keyConversionFailure k tn) (s :: ss)
             else match dh[k.toNat]? with
              | some hv => (fanOutKeys dh tn ss ks2).consSeed hv
              | none => .panicked) from rfl, if_neg (by omega)]
          rw [List.getElem?_eq_none hlen2]
  | succ j ih =>
    intro seeds ks k hpre hlen hk
    cases seeds with
    | nil => simp at hlen
    | cons s ss =>
      cases ks with
      | nil => simp [List.getD] at hk
      | cons k0 ks2 =>
        simp only [List.getD_cons_succ] at hk
        have hk0 : keyOk dh.length k0 = true := by
          have := hpre 0 (Nat.succ_pos j)
          simpa using this
        have hpre2 : ∀ j2, j2 < j → keyOk dh.length (ks2.getD j2 none) = true := by
          intro j2 hj2
          have := hpre (j2 + 1) (by omega)
          simpa using this
        have hlen2 : j < ss.length := by simpa using hlen
        obtain ⟨ha, hb⟩ := ih ss ks2 k hpre2 hlen2 hk
        cases k0 with
        | none =>
          rw [show fanOutKeys dh tn (s :: ss) (none :: ks2) =
            (fanOutKeys dh tn ss ks2).consSeed s from rfl]
          constructor
          · intro hneg
            obtain ⟨buf, hbuf⟩ := ha hneg
            exact ⟨s :: buf, by rw [hbuf]; rfl⟩
          · intro h1 h2
            rw [hb h1 h2]
            rfl
        | some k0v =>
          simp only [keyOk, Bool.and_eq_true, decide_eq_true_eq] at hk0
          obtain ⟨hk0a, hk0b⟩ := hk0
          obtain ⟨hv, hhv⟩ : ∃ hv, dh[k0v.toNat]? = some hv :=
            ⟨_, List.getElem?_eq_getElem hk0b⟩
          rw [show fanOutKeys dh tn (s :: ss) (some k0v :: ks2) =
            (if k0v < 0 then .err (.keyConversionFailure k0v tn) (s :: ss)
             else match dh[k0v.toNat]? with
              | some hv => (fanOutKeys dh tn ss ks2).consSeed hv
              | none => .panicked) from rfl, if_neg (by omega), hhv]
          constructor
          · intro hneg
            obtain ⟨buf, hbuf⟩ := ha hneg
            refine ⟨hv :: buf, ?_⟩
            simp only
            rw [hbuf]
            rfl
          · intro h1 h2
            simp only
            rw [hb h1 h2]
            rfl

/-- Claim C7 counterexample: a non-null key (1) that does not resolve to
a valid position in the one-element distinct-value array makes
`create_hashes` panic on the out-of-bounds index, not return a
KeyConversionFailure error, contradicting the claim's "rather than
producing a wrong hash or crashing ... for every key that does not
resolve to a valid position". -/
theorem dictionary_key_panic_cex :
    create_hashes [Col.dictionary KeyType.int32 [some 1] (Col.int8 [some 5])] [42] =
      HashResult.panicked := by decide

/-- Claim C7 (amended): whenever the first offending key of a dictionary
column (all keys before row i null or valid) is non-null and cannot be
converted to a usize index (it is negative), `create_hashes` fails with
a KeyConversionFailure carrying the raw key and the dictionary type; a
key that converts but falls outside the distinct-value array instead
panics on the out-of-bounds index. -/
theorem dictionary_key_failure :
    ∀ (kt : KeyType) (c : Col) (ks : List (Option Int)) (seeds dh : List Nat)
      (i : Nat) (k : Int),
      kt.isSupported = true →
      create_hashes [c] (List.replicate c.numRows 0) = .ok dh →
      (∀ j, j < i → keyOk dh.length (ks.getD j none) = true) →
      i < seeds.length → ks.getD i none = some k →
      (k < 0 → ∃ buf, create_hashes [Col.dictionary kt ks c] seeds =
          .err (.keyConversionFailure k (Col.dictionary kt ks c).typeName) buf) ∧
      (0 ≤ k → dh.length ≤ k.toNat →
          create_hashes [Col.dictionary kt ks c] seeds = HashResult.panicked) := by
  intro kt c ks seeds dh i k hkt hdh hpre hlen hk
  rw [create_hashes_singleton] at hdh
  obtain ⟨ha, hb⟩ :=
    fanOutKeys_first_bad dh (Col.dictionary kt ks c).typeName i seeds ks k hpre hlen hk
  constructor
  · intro hneg
    obtain ⟨buf, hbuf⟩ := ha hneg
    exact ⟨buf, by
      rw [create_hashes_singleton]
      exact hash_column_dict_build ks seeds hkt hdh hbuf⟩
  · intro h1 h2
    rw [create_hashes_singleton]
    exact hash_column_dict_build ks seeds hkt hdh (hb h1 h2)

/-- Witness for C7's amended theorem at a concrete input (key -1). -/
theorem dictionary_key_failure_witness :
    KeyType.isSupported KeyType.int32 = true ∧
      create_hashes [Col.int8 [some 5]]
          (List.replicate (Col.int8 [some 5]).numRows 0) =
        .ok [spark_compatible_murmur3_hash (encI32 5) 0] ∧
      (0 : Nat) < ([42] : List Nat).length ∧
      ([some (-1 : Int)] : List (Option Int)).getD 0 none = some (-1) ∧
      (((-1 : Int) < 0 → ∃ buf,
          create_hashes [Col.dictionary KeyType.int32 [some (-1)] (Col.int8 [some 5])] [42] =
            .err (.keyConversionFailure (-1)
              (Col.dictionary KeyType.int32 [some (-1)] (Col.int8 [some 5])).typeName) buf) ∧
        ((0 : Int) ≤ -1 →
          ([spark_compatible_murmur3_hash (encI32 5) 0] : List Nat).length ≤ (-1 : Int).toNat →
          create_hashes [Col.dictionary KeyType.int32 [some (-1)] (Col.int8 [some 5])] [42] =
            HashResult.panicked)) :=
  ⟨rfl, rfl, by decide, rfl,
    dictionary_key_failure KeyType.int32 (Col.int8 [some 5]) [some (-1)] [42]
      [spark_compatible_murmur3_hash (encI32 5) 0] 0 (-1) rfl rfl
      (fun j hj => absurd hj (Nat.not_lt_zero j)) (by decide) rfl⟩

/-! ## Dictionary seed-zero equivalence (C2) -/

theorem zipHashP_eq_zipWith {α : Type} (enc : α → List Nat) :
    ∀ (seeds : List Nat) (vs : List (Option α)), seeds.length = vs.length →
      zipHashP enc seeds vs = List.zipWith (rowHash enc) seeds vs := by
  intro seeds
  induction seeds with
  | nil => intro vs h; simp [zipHashP_nil_left]
  | cons s ss ih =>
    intro vs h
    cases vs with
    | nil => simp at h
    | cons v vs2 =>
      cases v with
      | none => simp [zipHashP, rowHash, ih vs2 (by simpa using h)]
      | some a => simp [zipHashP, rowHash, ih vs2 (by simpa using h)]

theorem zipHashE_eq_zipWith {α : Type} (enc : α → List Nat) :
    ∀ (seeds : List Nat) (vs : List (Option α)), seeds.length = vs.length →
      zipHashE enc seeds vs = .ok (List.zipWith (rowHash enc) seeds vs) := by
  intro seeds
  induction seeds with
  | nil => intro vs h; simp [zipHashE_nil_left]
  | cons s ss ih =>
    intro vs h
    cases vs with
    | nil => simp at h
    | cons v vs2 =>
      cases v with
      | none =>
        rw [show zipHashE enc (s :: ss) (none :: vs2) =
          (zipHashE enc ss vs2).consSeed s from rfl,
          ih vs2 (by simpa using h)]
        simp [HashResult.consSeed, rowHash]
      | some a =>
        rw [show zipHashE enc (s :: ss) (some a :: vs2) =
          (zipHashE enc ss vs2).consSeed (spark_compatible_murmur3_hash (enc a) s)
          from rfl,
          ih vs2 (by simpa using h)]
        simp [HashResult.consSeed, rowHash]

theorem zipWith_rowHash_get {α : Type} (enc : α → List Nat) :
    ∀ (vs : List (Option α)) (k : Nat), k < vs.length →
      (List.zipWith (rowHash enc) (List.replicate vs.length 0) vs)[k]? =
        some (rowHash enc 0 (vs.getD k none)) := by
  intro vs
  induction vs with
  | nil => intro k h; simp at h
  | cons v vs2 ih =>
    intro k h
    cases k with
    | zero => simp [List.replicate_succ]
    | succ j =>
      simp only [List.length_cons, List.replicate_succ, List.zipWith_cons_cons,
        List.getElem?_cons_succ, List.getD_cons_succ]
      exact ih j (by simpa using h)

theorem fanOut_gather {α : Type} (enc : α → List Nat) (vals : List (Option α)) (tn : String) :
    ∀ (seeds : List Nat) (ks : List (Option Int)),
      seeds.length = ks.length →
      (∀ k0 ∈ ks, ∃ v : Int, k0 = some v ∧ 0 ≤ v ∧ v.toNat < vals.length) →
      fanOutKeys (List.zipWith (rowHash enc) (List.replicate vals.length 0) vals)
          tn seeds ks =
        .ok (List.zipWith (rowHash enc) (List.replicate ks.length 0)
          (gatherVals vals ks)) := by
  intro seeds
  induction seeds with
  | nil =>
    intro ks hlen hgood
    have hks : ks = [] := by
      cases ks with
      | nil => rfl
      | cons a b => simp at hlen
    subst hks
    rfl
  | cons s ss ih =>
    intro ks hlen hgood
    cases ks with
    | nil => simp at hlen
    | cons k0 ks2 =>
      obtain ⟨v, rfl, hv0, hvlen⟩ := hgood k0 (List.mem_cons_self k0 ks2)
      rw [show fanOutKeys (List.zipWith (rowHash enc) (List.replicate vals.length 0) vals)
          tn (s :: ss) (some v :: ks2) =
        (if v < 0 then
          .err (.keyConversionFailure v tn) (s :: ss)
         else match (List.zipWith (rowHash enc) (List.replicate vals.length 0) vals)[v.toNat]? with
          | some hv => (fanOutKeys (List.zipWith (rowHash enc)
              (List.replicate vals.length 0) vals) tn ss ks2).consSeed hv
          | none => .panicked) from rfl,
        if_neg (by omega), zipWith_rowHash_get enc vals v.toNat hvlen]
      simp only
      rw [ih ks2 (by simpa using hlen) (fun k hm => hgood k (List.mem_cons_of_mem _ hm))]
      simp [gatherVals, HashResult.consSeed, List.replicate_succ]

theorem dict_gather_generic {α : Type} (enc : α → List Nat) (mk : List (Option α) → Col)
    (hmk : ∀ (l : List (Option α)) (s : List Nat),
      hash_column (mk l) s = .ok (zipHashP enc s l))
    (hrows : ∀ l, (mk l).numRows = l.length)
    (hgat : ∀ l ks, (mk l).gather ks = mk (gatherVals l ks))
    (kt : KeyType) (vs : List (Option α)) (ks : List (Option Int)) (seeds : List Nat)
    (hkt : kt.isSupported = true)
    (hlen : seeds.length = ks.length)
    (hgood : ∀ k0 ∈ ks, ∃ v : Int, k0 = some v ∧ 0 ≤ v ∧ v.toNat < (mk vs).numRows) :
    hash_column (Col.dictionary kt ks (mk vs)) seeds =
      hash_column ((mk vs).gather ks) (List.replicate ks.length 0) := by
  have hgood2 : ∀ k0 ∈ ks, ∃ v : Int, k0 = some v ∧ 0 ≤ v ∧ v.toNat < vs.length := by
    intro k0 hm
    obtain ⟨v, h1, h2, h3⟩ := hgood k0 hm
    exact ⟨v, h1, h2, by rwa [hrows] at h3⟩
  have hdh : hash_column (mk vs) (List.replicate (mk vs).numRows 0) =
      .ok (List.zipWith (rowHash enc) (List.replicate vs.length 0) vs) := by
    rw [hmk, hrows, zipHashP_eq_zipWith enc _ _ (by simp)]
  rw [hash_column_dict_build ks seeds hkt hdh
      (fanOut_gather enc vs (Col.dictionary kt ks (mk vs)).typeName seeds ks hlen hgood2),
    hgat, hmk, zipHashP_eq_zipWith enc _ _ (by simp [gatherVals])]

theorem dict_gather_genericE {α : Type} (enc : α → List Nat) (mk : List (Option α) → Col)
    (hmk : ∀ (l : List (Option α)) (s : List Nat),
      hash_column (mk l) s = zipHashE enc s l)
    (hrows : ∀ l, (mk l).numRows = l.length)
    (hgat : ∀ l ks, (mk l).gather ks = mk (gatherVals l ks))
    (kt : KeyType) (vs : List (Option α)) (ks : List (Option Int)) (seeds : List Nat)
    (hkt : kt.isSupported = true)
    (hlen : seeds.length = ks.length)
    (hgood : ∀ k0 ∈ ks, ∃ v : Int, k0 = some v ∧ 0 ≤ v ∧ v.toNat < (mk vs).numRows) :
    hash_column (Col.dictionary kt ks (mk vs)) seeds =
      hash_column ((mk vs).gather ks) (List.replicate ks.length 0) := by
  have hgood2 : ∀ k0 ∈ ks, ∃ v : Int, k0 = some v ∧ 0 ≤ v ∧ v.toNat < vs.length := by
    intro k0 hm
    obtain ⟨v, h1, h2, h3⟩ := hgood k0 hm
    exact ⟨v, h1, h2, by rwa [hrows] at h3⟩
  have hdh : hash_column (mk vs) (List.replicate (mk vs).numRows 0) =
      .ok (List.zipWith (rowHash enc) (List.replicate vs.length 0) vs) := by
    rw [hmk, hrows, zipHashE_eq_zipWith enc _ _ (by simp)]
  rw [hash_column_dict_build ks seeds hkt hdh
      (fanOut_gather enc vs (Col.dictionary kt ks (mk vs)).typeName seeds ks hlen hgood2),
    hgat, hmk, zipHashE_eq_zipWith enc _ _ (by simp [gatherVals])]

/-- Claim C2: a dictionary column hashes its distinct-value array once
from a fresh all-zero seed array, independent of the incoming per-row
seeds, and overwrites the outer seed of every non-null-key row with the
precomputed dictionary-value hash; consequently, for a dictionary column
whose keys are all non-null valid indices into a raw value array, the
result equals hashing the corresponding raw (gathered) value array
directly with seed 0, regardless of the seeds present in the buffer
before the column is processed. -/
theorem dictionary_seed_zero_equiv :
    ∀ (kt : KeyType) (c : Col) (ks : List (Option Int)) (seeds : List Nat),
      kt.isSupported = true → c.isRaw = true →
      seeds.length = ks.length →
      (∀ k0 ∈ ks, ∃ v : Int, k0 = some v ∧ 0 ≤ v ∧ v.toNat < c.numRows) →
      create_hashes [Col.dictionary kt ks c] seeds =
        create_hashes [c.gather ks] (List.replicate ks.length 0) := by
  intro kt c ks seeds hkt hraw hlen hgood
  rw [create_hashes_singleton, create_hashes_singleton]
  cases c with
  | boolean vs =>
    exact dict_gather_genericE encBool Col.boolean (fun l s => rfl) (fun l => rfl)
      (fun l ks => rfl) kt vs ks seeds hkt hlen hgood
  | int8 vs =>
    exact dict_gather_generic encI32 Col.int8 (fun l s => rfl) (fun l => rfl)
      (fun l ks => rfl) kt vs ks seeds hkt hlen hgood
  | int16 vs =>
    exact dict_gather_generic encI32 Col.int16 (fun l s => rfl) (fun l => rfl)
      (fun l ks => rfl) kt vs ks seeds hkt hlen hgood
  | int32 vs =>
    exact dict_gather_generic encI32 Col.int32 (fun l s => rfl) (fun l => rfl)
      (fun l ks => rfl) kt vs ks seeds hkt hlen hgood
  | int64 vs =>
    exact dict_gather_generic encI64 Col.int64 (fun l s => rfl) (fun l => rfl)
      (fun l ks => rfl) kt vs ks seeds hkt hlen hgood
  | float32 vs =>
    exact dict_gather_generic encF32 Col.float32 (fun l s => rfl) (fun l => rfl)
      (fun l ks => rfl) kt vs ks seeds hkt hlen hgood
  | float64 vs =>
    exact dict_gather_generic encF64 Col.float64 (fun l s => rfl) (fun l => rfl)
      (fun l ks => rfl) kt vs ks seeds hkt hlen hgood
  | timestampSecond vs =>
    exact dict_gather_generic encI64 Col.timestampSecond (fun l s => rfl) (fun l => rfl)
      (fun l ks => rfl) kt vs ks seeds hkt hlen hgood
  | timestampMillisecond vs =>
    exact dict_gather_generic encI64 Col.timestampMillisecond (fun l s => rfl)
      (fun l => rfl) (fun l ks => rfl) kt vs ks seeds hkt hlen hgood
  | timestampMicrosecond vs =>
    exact dict_gather_generic encI64 Col.timestampMicrosecond (fun l s => rfl)
      (fun l => rfl) (fun l ks => rfl) kt vs ks seeds hkt hlen hgood
  | timestampNanosecond vs =>
    exact dict_gather_generic encI64 Col.timestampNanosecond (fun l s => rfl)
      (fun l => rfl) (fun l ks => rfl) kt vs ks seeds hkt hlen hgood
  | date32 vs =>
    exact dict_gather_generic encI32 Col.date32 (fun l s => rfl) (fun l => rfl)
      (fun l ks => rfl) kt vs ks seeds hkt hlen hgood
  | date64 vs =>
    exact dict_gather_generic encI64 Col.date64 (fun l s => rfl) (fun l => rfl)
      (fun l ks => rfl) kt vs ks seeds hkt hlen hgood
  | utf8 vs =>
    exact dict_gather_genericE (fun bs => bs) Col.utf8 (fun l s => rfl) (fun l => rfl)
      (fun l ks => rfl) kt vs ks seeds hkt hlen hgood
  | largeUtf8 vs =>
    exact dict_gather_genericE (fun bs => bs) Col.largeUtf8 (fun l s => rfl)
      (fun l => rfl) (fun l ks => rfl) kt vs ks seeds hkt hlen hgood
  | binary vs =>
    exact dict_gather_genericE (fun bs => bs) Col.binary (fun l s => rfl) (fun l => rfl)
      (fun l ks => rfl) kt vs ks seeds hkt hlen hgood
  | largeBinary vs =>
    exact dict_gather_genericE (fun bs => bs) Col.largeBinary (fun l s => rfl)
      (fun l => rfl) (fun l ks => rfl) kt vs ks seeds hkt hlen hgood
  | fixedSizeBinary w vs =>
    exact dict_gather_genericE (fun bs => bs) (Col.fixedSizeBinary w) (fun l s => rfl)
      (fun l => rfl) (fun l ks => rfl) kt vs ks seeds hkt hlen hgood
  | decimal128 p sc vs =>
    exact dict_gather_genericE encI128 (Col.decimal128 p sc) (fun l s => rfl)
      (fun l => rfl) (fun l ks => rfl) kt vs ks seeds hkt hlen hgood
  | dictionary kt2 ks2 v => simp [Col.isRaw] at hraw
  | unsupported n => simp [Col.isRaw] at hraw

/-- Witness for C2 at a concrete input. -/
theorem dictionary_seed_zero_equiv_witness :
    KeyType.isSupported KeyType.int32 = true ∧
      Col.isRaw (Col.int8 [some 7, some 9]) = true ∧
      ([5, 6, 8] : List Nat).length = ([some 1, some 0, some 1] : List (Option Int)).length ∧
      create_hashes [Col.dictionary KeyType.int32 [some 1, some 0, some 1]
          (Col.int8 [some 7, some 9])] [5, 6, 8] =
        create_hashes [(Col.int8 [some 7, some 9]).gather [some 1, some 0, some 1]]
          (List.replicate ([some 1, some 0, some 1] : List (Option Int)).length 0) :=
  ⟨rfl, rfl, rfl,
    dictionary_seed_zero_equiv KeyType.int32 (Col.int8 [some 7, some 9])
      [some 1, some 0, some 1] [5, 6, 8] rfl rfl rfl
      (by
        intro k0 hm
        simp only [List.mem_cons, List.not_mem_nil, or_false] at hm
        rcases hm with rfl | rfl | rfl
        · exact ⟨1, rfl, by decide, by decide⟩
        · exact ⟨0, rfl, by decide, by decide⟩
        · exact ⟨1, rfl, by decide, by decide⟩)⟩
